import Mathlib

/-!
Verification of the instance-lifecycle core of the enum editor plugin
(`src/src/lib.rs`). The Rust code is shallowly embedded: filesystem paths
become lists of components, the two `Arc<Mutex<..>>`-protected fields of
`EnumEditorPlugin` become plain fields of a state record that operations
thread explicitly, and the `HashMap<usize, EditorStorage>` becomes an
association list whose insert replaces any existing binding for the key.
External collaborators (the `plugin_editor_api` error type, the gpui entity
store, and the `EnumEditor` panel defined in `editor.rs`, which is not part
of the sources) are modelled from the spec, as noted on each definition.
A separate small-step interleaving semantics models the two distinct mutex
scopes of `create_editor` and the single scope of `on_unload` for the
concurrency claim.
-/

/-- A filesystem path, as a list of components (`PathBuf`). -/
abbrev FsPath := List String

/-- Embeds `PathBuf::join` with a single extra component. -/
def pathJoin (p : FsPath) (s : String) : FsPath := p ++ [s]

/-- Modelled from the spec: the host-facing factory error contract is
`EditorNotFound(editor_kind) | ConstructionFailed(details)`. The enum lives
in the external `plugin_editor_api` crate; the code under `src/` only ever
constructs `EditorNotFound`. -/
inductive PluginError where
  | EditorNotFound (editor_id : String)
  | ConstructionFailed (details : String)
  deriving Repr, DecidableEq

/-- Modelled from the spec: `EnumEditor` (defined in `editor.rs`, not under
`src/`) is the Editable Entity; `new_with_file` binds it to the resolved
path handed to it by the factory. Its further internal state is opaque
here. -/
structure EnumEditor where
  path : FsPath
  deriving Repr, DecidableEq

/-- Modelled from the spec: `EnumEditor::new_with_file` constructs the
entity bound to the given resolved path. -/
def EnumEditor.new_with_file (p : FsPath) : EnumEditor := { path := p }

/-- Handle of a gpui entity (`Entity<EnumEditor>` / `Arc<dyn PanelView>`
both denote the same underlying panel; we model the handle as the id under
which the gpui app stores the entity). -/
abbrev PanelHandle := Nat

/-- Rust `EnumEditorWrapper`: adapts one `EnumEditor` entity to the host-facing
`EditorInstance` contract. Fields exactly as in the Rust struct: the panel
handle and the stored `file_path`. -/
structure EnumEditorWrapper where
  panel : PanelHandle
  file_path : FsPath
  deriving Repr, DecidableEq

/-- Rust `EnumEditorWrapper::is_dirty`, which returns the literal `false`. -/
def EnumEditorWrapper.is_dirty (_w : EnumEditorWrapper) : Bool := false

/-- Rust `EditorStorage`: one registry record of a panel and a wrapper. -/
structure EditorStorage where
  panel : PanelHandle
  wrapper : EnumEditorWrapper
  deriving Repr, DecidableEq

/-- Insert into an association-list map with `HashMap::insert` semantics:
any existing binding for the key is replaced. -/
def mapInsert {α : Type} (k : Nat) (v : α) (m : List (Nat × α)) :
    List (Nat × α) :=
  (k, v) :: m.filter (fun kv => kv.1 ≠ k)

/-- Keys of an association-list map. -/
def keysOf {α : Type} (m : List (Nat × α)) : List Nat := m.map (·.1)

/-- Rust `EnumEditorPlugin` state: the registry map and the next-id counter.
In Rust each sits behind its own `Arc<Mutex<..>>`; sequential operations
thread the whole state explicitly. -/
structure EnumEditorPlugin where
  editors : List (Nat × EditorStorage)
  next_editor_id : Nat
  deriving Repr, DecidableEq

/-- Rust `EnumEditorPlugin::default`: empty map, counter 0. -/
def EnumEditorPlugin.default : EnumEditorPlugin :=
  { editors := [], next_editor_id := 0 }

/-- Modelled from the spec: the gpui `App` entity store, in which `cx.new`
allocates entities. External to the sources; only its allocate/update
behaviour is used by the code. -/
structure AppState where
  next_entity_id : Nat
  entities : List (Nat × EnumEditor)
  deriving Repr, DecidableEq

/-- Modelled from the spec: `cx.new` stores a fresh entity and returns its
handle. -/
def AppState.new (app : AppState) (e : EnumEditor) : PanelHandle × AppState :=
  (app.next_entity_id,
   { next_entity_id := app.next_entity_id + 1,
     entities := mapInsert app.next_entity_id e app.entities })

/-- An empty gpui app store. -/
def AppState.empty : AppState := { next_entity_id := 0, entities := [] }

/-- Modelled from the spec: gpui `Entity::update` reads the entity value for
the handle, applies the closure, writes the updated value back, and returns
the closure's result unchanged. `none` models the handle not being live
(a panic in gpui; the wrapper invariant rules it out). -/
def entityUpdate {α : Type} (app : AppState) (h : PanelHandle)
    (f : EnumEditor → α × EnumEditor) : Option (α × AppState) :=
  match app.entities.lookup h with
  | none => none
  | some e =>
    some ((f e).1, { app with entities := mapInsert h (f e).2 app.entities })

/-- Rust `EnumEditorPlugin::create_editor`. Faithful to the Rust control flow:
kind check, path resolution (`is_dir` is the filesystem's answer to
`file_path.is_dir()`, an external input), panel construction via `cx.new`,
wrapper construction storing the original `file_path`, id allocation under
the `next_editor_id` lock, insertion under the `editors` lock. The error
branch touches no state, so the plugin and app states are returned
unchanged there. -/
def create_editor (p : EnumEditorPlugin) (app : AppState) (editor_id : String)
    (file_path : FsPath) (is_dir : Bool) :
    Except PluginError (PanelHandle × EnumEditorWrapper) ×
      EnumEditorPlugin × AppState :=
  if editor_id = "enum-editor" then
    let actual_path := if is_dir then pathJoin file_path "enum.json" else file_path
    let pa := app.new (EnumEditor.new_with_file actual_path)
    let wrapper : EnumEditorWrapper := { panel := pa.1, file_path := file_path }
    let id := p.next_editor_id
    let p1 : EnumEditorPlugin := { p with next_editor_id := p.next_editor_id + 1 }
    let p2 : EnumEditorPlugin :=
      { p1 with editors := mapInsert id { panel := pa.1, wrapper := wrapper } p1.editors }
    (Except.ok (pa.1, wrapper), p2, pa.2)
  else
    (Except.error (PluginError.EditorNotFound editor_id), p, app)

/-- Rust `EnumEditorPlugin::on_unload`: reads the map's length (the count it
logs), then clears the map. Returns the logged count together with the new
state; the counter is untouched. -/
def on_unload (p : EnumEditorPlugin) : Nat × EnumEditorPlugin :=
  (p.editors.length, { p with editors := [] })

/-- Rust `EnumEditorWrapper::save`: forwards through `Entity::update` to the
panel's `plugin_save` (defined in `editor.rs`, not under `src/`, hence an
arbitrary entity-level operation here). -/
def EnumEditorWrapper.save (w : EnumEditorWrapper) (app : AppState)
    (plugin_save : EnumEditor → Except PluginError Unit × EnumEditor) :
    Option (Except PluginError Unit × AppState) :=
  entityUpdate app w.panel plugin_save

/-- Rust `EnumEditorWrapper::reload`: forwards through `Entity::update` to the
panel's `plugin_reload` (defined in `editor.rs`, not under `src/`). -/
def EnumEditorWrapper.reload (w : EnumEditorWrapper) (app : AppState)
    (plugin_reload : EnumEditor → Except PluginError Unit × EnumEditor) :
    Option (Except PluginError Unit × AppState) :=
  entityUpdate app w.panel plugin_reload

/- ### Claims C2, C4, C5 -/

/-- Claim C2: `create_editor` with any editor kind other than
`"enum-editor"`, on any path, any directory shape and any prior plugin and
app state, returns `EditorNotFound` carrying the requested identifier, and
leaves the registry map and the next-id counter (indeed the whole state)
unchanged. -/
theorem create_editor_unknown_kind (p : EnumEditorPlugin) (app : AppState)
    (editor_id : String) (file_path : FsPath) (is_dir : Bool)
    (h : editor_id ≠ "enum-editor") :
    create_editor p app editor_id file_path is_dir =
      (Except.error (PluginError.EditorNotFound editor_id), p, app) := by
  simp [create_editor, h]

/-- Witness for C2 at a concrete unknown kind. -/
theorem create_editor_unknown_kind_witness :
    "bogus-editor" ≠ "enum-editor" ∧
      create_editor EnumEditorPlugin.default AppState.empty "bogus-editor"
          ["Colors.enum"] true =
        (Except.error (PluginError.EditorNotFound "bogus-editor"),
          EnumEditorPlugin.default, AppState.empty) :=
  ⟨by decide,
    create_editor_unknown_kind EnumEditorPlugin.default AppState.empty
      "bogus-editor" ["Colors.enum"] true (by decide)⟩

/-- Claim C4: `on_unload` empties the registry map, reports exactly the
registry size immediately before the call, and a second consecutive
`on_unload` reports 0; being a total function, neither call raises an
error. -/
theorem on_unload_clears (p : EnumEditorPlugin) :
    (on_unload p).2.editors = [] ∧
      (on_unload p).1 = p.editors.length ∧
      (on_unload (on_unload p).2).1 = 0 := by
  simp [on_unload]

/-- Claim C5: `is_dirty` returns `false` on every wrapper, regardless of
the wrapped entity's state (which the wrapper does not even consult). -/
theorem is_dirty_always_false (w : EnumEditorWrapper) :
    w.is_dirty = false := rfl

/- ### Claim C1 (path stored in the wrapper) -/

/-- Counterexample to claim C1: opening the folder-shaped `"Colors.enum"`
(`is_dir = true`) as kind `"enum-editor"` succeeds, yet the returned
wrapper's `file_path` is the input path `["Colors.enum"]`, not the resolved
marker path `["Colors.enum", "enum.json"]`: the code hands `actual_path`
to the panel but stores the original `file_path` in the wrapper. -/
theorem file_path_counterexample :
    (create_editor EnumEditorPlugin.default AppState.empty "enum-editor"
        ["Colors.enum"] true).1 =
      Except.ok (0, { panel := 0, file_path := ["Colors.enum"] }) ∧
      (["Colors.enum"] : FsPath) ≠ pathJoin ["Colors.enum"] "enum.json" := by
  constructor
  · rfl
  · decide

/-- Claim C1 as amended: for every successful `create_editor` call, the
returned instance handle's `file_path` equals the input path unchanged —
also when the input is a directory, in which case only the panel receives
the resolved marker path `input.join("enum.json")`. -/
theorem file_path_eq_input (p : EnumEditorPlugin) (app : AppState)
    (editor_id : String) (file_path : FsPath) (is_dir : Bool)
    (hdl : PanelHandle) (w : EnumEditorWrapper)
    (hok : (create_editor p app editor_id file_path is_dir).1 =
      Except.ok (hdl, w)) :
    w.file_path = file_path := by
  by_cases hk : editor_id = "enum-editor"
  · simp [create_editor, hk] at hok
    simp [← hok.2]
  · simp [create_editor, hk] at hok

/-- Witness for the amended C1 at a concrete folder-shaped input. -/
theorem file_path_eq_input_witness :
    (create_editor EnumEditorPlugin.default AppState.empty "enum-editor"
        ["Colors.enum"] true).1 =
      Except.ok (0, { panel := 0, file_path := ["Colors.enum"] }) ∧
      ({ panel := 0, file_path := ["Colors.enum"] } :
        EnumEditorWrapper).file_path = ["Colors.enum"] :=
  ⟨rfl,
    file_path_eq_input EnumEditorPlugin.default AppState.empty "enum-editor"
      ["Colors.enum"] true 0 { panel := 0, file_path := ["Colors.enum"] } rfl⟩

/- ### Claim C10 (matching kind always succeeds) -/

/-- Claim C10: `create_editor` with kind exactly `"enum-editor"` always
returns `Ok` with a display handle and an instance handle — construction
has no failure branch, so `ConstructionFailed` is never produced — and,
whenever the allocated id is fresh (as the counter invariant guarantees),
the registry gains exactly one entry. -/
theorem create_editor_enum_kind_ok (p : EnumEditorPlugin) (app : AppState)
    (file_path : FsPath) (is_dir : Bool)
    (hfresh : p.next_editor_id ∉ keysOf p.editors) :
    (create_editor p app "enum-editor" file_path is_dir).1 =
      Except.ok (app.next_entity_id,
        { panel := app.next_entity_id, file_path := file_path }) ∧
      (create_editor p app "enum-editor" file_path is_dir).2.1.editors.length =
        p.editors.length + 1 ∧
      ∀ details, (create_editor p app "enum-editor" file_path is_dir).1 ≠
        Except.error (PluginError.ConstructionFailed details) := by
  refine ⟨rfl, ?_, by simp [create_editor, AppState.new]⟩
  simp [create_editor, AppState.new, mapInsert]
  intro a b hab he
  exact hfresh (he ▸ List.mem_map_of_mem (·.1) hab)

/-- Witness for C10 from the default (empty) plugin state. -/
theorem create_editor_enum_kind_ok_witness :
    EnumEditorPlugin.default.next_editor_id ∉
        keysOf EnumEditorPlugin.default.editors ∧
      (create_editor EnumEditorPlugin.default AppState.empty "enum-editor"
          ["Colors.enum"] true).2.1.editors.length =
        EnumEditorPlugin.default.editors.length + 1 :=
  ⟨by decide,
    (create_editor_enum_kind_ok EnumEditorPlugin.default AppState.empty
      ["Colors.enum"] true (by decide)).2.1⟩

/- ### Claims C6, C9 (wrapper save/reload) -/

/-- Claim C6: with the wrapped entity live, `save` and `reload` each return
exactly the result the underlying entity operation produces — `Ok` when it
succeeds, and the entity's error unchanged when it fails; no failure is
swallowed. -/
theorem save_reload_forward (w : EnumEditorWrapper) (app : AppState)
    (f g : EnumEditor → Except PluginError Unit × EnumEditor) (e : EnumEditor)
    (hlive : app.entities.lookup w.panel = some e) :
    w.save app f = some ((f e).1,
        { next_entity_id := app.next_entity_id,
          entities := mapInsert w.panel (f e).2 app.entities }) ∧
      w.reload app g = some ((g e).1,
        { next_entity_id := app.next_entity_id,
          entities := mapInsert w.panel (g e).2 app.entities }) := by
  constructor
  · simp [EnumEditorWrapper.save, entityUpdate, hlive]
  · simp [EnumEditorWrapper.reload, entityUpdate, hlive]

/-- Witness for C6: one live entity; `save` forwards a concrete failure and
`reload` forwards a concrete success. -/
theorem save_reload_forward_witness :
    ({ next_entity_id := 1, entities := [(0, { path := ["a"] })] } :
        AppState).entities.lookup 0 = some { path := ["a"] } ∧
      EnumEditorWrapper.save { panel := 0, file_path := ["a"] }
          { next_entity_id := 1, entities := [(0, { path := ["a"] })] }
          (fun e => (Except.error (PluginError.ConstructionFailed "disk"), e)) =
        some (Except.error (PluginError.ConstructionFailed "disk"),
          { next_entity_id := 1,
            entities := mapInsert 0 { path := ["a"] }
              [(0, { path := ["a"] })] }) :=
  ⟨rfl,
    (save_reload_forward { panel := 0, file_path := ["a"] }
      { next_entity_id := 1, entities := [(0, { path := ["a"] })] }
      (fun e => (Except.error (PluginError.ConstructionFailed "disk"), e))
      (fun e => (Except.ok (), e)) { path := ["a"] } rfl).1⟩

/-- Combined plugin-plus-gpui state, to express frame properties of
operations that run while a registry exists. -/
structure PluginSystem where
  plugin : EnumEditorPlugin
  app : AppState
  deriving Repr, DecidableEq

/-- Wrapper `save` lifted to the combined state. The Rust method receives only the
wrapper, the window and the gpui `App`; the plugin's registry fields are
not reachable from it, so only the app component can change. -/
def systemSave (s : PluginSystem) (w : EnumEditorWrapper)
    (plugin_save : EnumEditor → Except PluginError Unit × EnumEditor) :
    Option (Except PluginError Unit × PluginSystem) :=
  match w.save s.app plugin_save with
  | none => none
  | some ra => some (ra.1, { plugin := s.plugin, app := ra.2 })

/-- Wrapper `reload` lifted to the combined state, like `systemSave`. -/
def systemReload (s : PluginSystem) (w : EnumEditorWrapper)
    (plugin_reload : EnumEditor → Except PluginError Unit × EnumEditor) :
    Option (Except PluginError Unit × PluginSystem) :=
  match w.reload s.app plugin_reload with
  | none => none
  | some ra => some (ra.1, { plugin := s.plugin, app := ra.2 })

/-- Claim C9: a `save` or `reload` call, whether its result is success or
failure, leaves the registry untouched: the instance's record is still
present, every map entry is unchanged, and the next-id counter keeps its
value — a failed save does not unregister the editor. -/
theorem save_reload_frame (s : PluginSystem) (w : EnumEditorWrapper)
    (f : EnumEditor → Except PluginError Unit × EnumEditor)
    (r : Except PluginError Unit) (s2 : PluginSystem)
    (hcall : systemSave s w f = some (r, s2) ∨
      systemReload s w f = some (r, s2)) :
    s2.plugin.editors = s.plugin.editors ∧
      s2.plugin.next_editor_id = s.plugin.next_editor_id ∧
      ∀ i entry, s.plugin.editors.lookup i = some entry →
        s2.plugin.editors.lookup i = some entry := by
  have hplug : s2.plugin = s.plugin := by
    rcases hcall with hs | hs
    · unfold systemSave at hs
      rcases hw : w.save s.app f with _ | ra <;> rw [hw] at hs
      · exact absurd hs (by simp)
      · injection hs with h2
        have h3 : ({ plugin := s.plugin, app := ra.2 } : PluginSystem) = s2 :=
          congrArg Prod.snd h2
        rw [← h3]
    · unfold systemReload at hs
      rcases hw : w.reload s.app f with _ | ra <;> rw [hw] at hs
      · exact absurd hs (by simp)
      · injection hs with h2
        have h3 : ({ plugin := s.plugin, app := ra.2 } : PluginSystem) = s2 :=
          congrArg Prod.snd h2
        rw [← h3]
  exact ⟨by rw [hplug], by rw [hplug], fun i entry h => by rw [hplug]; exact h⟩

/-- Sample one-entry registry used in concrete witnesses. -/
def samplePlugin : EnumEditorPlugin :=
  { editors := [(0, { panel := 0, wrapper := { panel := 0, file_path := ["a"] } })],
    next_editor_id := 1 }

/-- Sample gpui store holding the single live entity of `samplePlugin`. -/
def sampleApp : AppState :=
  { next_entity_id := 1, entities := [(0, { path := ["a"] })] }

/-- Sample combined state for `samplePlugin` and `sampleApp`. -/
def sampleSystem : PluginSystem := { plugin := samplePlugin, app := sampleApp }

/-- Sample combined state after the entity write-back of a save. -/
def sampleSystem2 : PluginSystem :=
  { plugin := samplePlugin,
    app := { next_entity_id := 1,
             entities := mapInsert 0 { path := ["a"] } [(0, { path := ["a"] })] } }

/-- Sample wrapper around the live entity of `sampleApp`. -/
def sampleWrapper : EnumEditorWrapper := { panel := 0, file_path := ["a"] }

/-- Sample entity-level save behaviour that fails with a disk error. -/
def failingSave : EnumEditor → Except PluginError Unit × EnumEditor :=
  fun e => (Except.error (PluginError.ConstructionFailed "disk"), e)

/-- Witness for C9: a concrete failing save over a one-entry registry
leaves the registry component of the state unchanged. -/
theorem save_reload_frame_witness :
    (systemSave sampleSystem sampleWrapper failingSave =
        some (Except.error (PluginError.ConstructionFailed "disk"),
          sampleSystem2) ∨
      systemReload sampleSystem sampleWrapper failingSave =
        some (Except.error (PluginError.ConstructionFailed "disk"),
          sampleSystem2)) ∧
      sampleSystem2.plugin.editors = sampleSystem.plugin.editors :=
  ⟨Or.inl rfl,
    (save_reload_frame sampleSystem sampleWrapper failingSave
      (Except.error (PluginError.ConstructionFailed "disk")) sampleSystem2
      (Or.inl rfl)).1⟩

/- ### Claim C3 (sequential id allocation) -/

/-- Normal form of a successful `create_editor` call: the returned handle
and wrapper, the updated registry (new record at the old counter value,
counter incremented), and the updated gpui store. -/
theorem create_editor_matched (p : EnumEditorPlugin) (app : AppState)
    (fp : FsPath) (d : Bool) :
    create_editor p app "enum-editor" fp d =
      (Except.ok (app.next_entity_id,
          { panel := app.next_entity_id, file_path := fp }),
        { editors := mapInsert p.next_editor_id
            { panel := app.next_entity_id,
              wrapper := { panel := app.next_entity_id, file_path := fp } }
            p.editors,
          next_editor_id := p.next_editor_id + 1 },
        { next_entity_id := app.next_entity_id + 1,
          entities := mapInsert app.next_entity_id
            (EnumEditor.new_with_file
              (if d then pathJoin fp "enum.json" else fp)) app.entities }) := by
  simp [create_editor, AppState.new]

/-- One `create_editor` request: the kind, the path, and whether the
filesystem says the path is a directory. -/
structure CreateReq where
  editor_id : String
  file_path : FsPath
  is_dir : Bool
  deriving Repr, DecidableEq

/-- Run a list of `create_editor` requests in order, collecting for each
successful call the id it allocated (the counter value the call read under
the `next_editor_id` lock). -/
def runCreates : List CreateReq → EnumEditorPlugin → AppState →
    EnumEditorPlugin × AppState × List Nat
  | [], p, app => (p, app, [])
  | q :: rest, p, app =>
    let step := create_editor p app q.editor_id q.file_path q.is_dir
    let next := runCreates rest step.2.1 step.2.2
    match step.1 with
    | Except.ok _ => (next.1, next.2.1, p.next_editor_id :: next.2.2)
    | Except.error _ => next

/-- Ids collected by `runCreates` over all-matching requests form the
contiguous range starting at the initial counter value, and the counter
advances by the number of calls. -/
theorem runCreates_ids (reqs : List CreateReq) :
    ∀ p app, (∀ q ∈ reqs, q.editor_id = "enum-editor") →
      (runCreates reqs p app).2.2 =
          List.range' p.next_editor_id reqs.length ∧
        (runCreates reqs p app).1.next_editor_id =
          p.next_editor_id + reqs.length := by
  induction reqs with
  | nil => intro p app _; exact ⟨rfl, rfl⟩
  | cons q rest ih =>
    intro p app hall
    have hq : q.editor_id = "enum-editor" := hall q (List.mem_cons_self q rest)
    have hrest : ∀ r ∈ rest, r.editor_id = "enum-editor" :=
      fun r hr => hall r (List.mem_cons_of_mem q hr)
    have hih := ih
      { editors := mapInsert p.next_editor_id
          { panel := app.next_entity_id,
            wrapper := { panel := app.next_entity_id, file_path := q.file_path } }
          p.editors,
        next_editor_id := p.next_editor_id + 1 }
      { next_entity_id := app.next_entity_id + 1,
        entities := mapInsert app.next_entity_id
          (EnumEditor.new_with_file
            (if q.is_dir then pathJoin q.file_path "enum.json" else q.file_path))
          app.entities }
      hrest
    simp only [runCreates, hq, create_editor_matched, List.length_cons]
    constructor
    · rw [List.range'_succ, hih.1]
    · rw [hih.2]
      dsimp only
      omega

/-- Claim C3: each successful `create_editor` call allocates the current
counter value as the instance id (the new record sits at that key) and
increments the counter by exactly one; consequently a sequence of N
successful calls starting from the default state (counter 0) yields the N
distinct ids 0..N-1 and leaves the counter at N. -/
theorem create_allocates_sequential_ids (reqs : List CreateReq)
    (hall : ∀ q ∈ reqs, q.editor_id = "enum-editor") :
    (∀ p app fp d,
      (create_editor p app "enum-editor" fp d).2.1.next_editor_id =
          p.next_editor_id + 1 ∧
        (create_editor p app "enum-editor" fp d).2.1.editors.lookup
            p.next_editor_id =
          some { panel := app.next_entity_id,
                 wrapper := { panel := app.next_entity_id, file_path := fp } }) ∧
      (runCreates reqs EnumEditorPlugin.default AppState.empty).2.2 =
        List.range reqs.length ∧
      (runCreates reqs EnumEditorPlugin.default AppState.empty).2.2.Nodup ∧
      (runCreates reqs EnumEditorPlugin.default AppState.empty).1.next_editor_id =
        reqs.length := by
  have hrun := runCreates_ids reqs EnumEditorPlugin.default AppState.empty hall
  have hzero : EnumEditorPlugin.default.next_editor_id = 0 := rfl
  rw [hzero] at hrun
  have hrange : List.range' 0 reqs.length = List.range reqs.length :=
    (List.range_eq_range' reqs.length).symm
  refine ⟨fun p app fp d => ⟨?_, ?_⟩, ?_, ?_, ?_⟩
  · rw [create_editor_matched]
  · rw [create_editor_matched]
    simp [mapInsert, List.lookup]
  · rw [hrun.1, hrange]
  · rw [hrun.1]
    exact List.nodup_range' 0 reqs.length
  · rw [hrun.2]
    omega

/-- Witness for C3: two successful requests from the default state yield
ids `[0, 1]` and counter 2. -/
theorem create_allocates_sequential_ids_witness :
    (∀ q ∈ [{ editor_id := "enum-editor", file_path := ["a"], is_dir := false },
            { editor_id := "enum-editor", file_path := ["b"], is_dir := true }],
        CreateReq.editor_id q = "enum-editor") ∧
      (runCreates
          [{ editor_id := "enum-editor", file_path := ["a"], is_dir := false },
           { editor_id := "enum-editor", file_path := ["b"], is_dir := true }]
          EnumEditorPlugin.default AppState.empty).2.2 = List.range 2 :=
  ⟨by decide,
    (create_allocates_sequential_ids
      [{ editor_id := "enum-editor", file_path := ["a"], is_dir := false },
       { editor_id := "enum-editor", file_path := ["b"], is_dir := true }]
      (by decide)).2.1⟩

/- ### Claim C7 (ids never reused across create/unload sequences) -/

/-- Normal form of a `create_editor` call whose kind does not match: the
routing error, with plugin and app states untouched. -/
theorem create_editor_unmatched (p : EnumEditorPlugin) (app : AppState)
    (editor_id : String) (fp : FsPath) (d : Bool)
    (hk : editor_id ≠ "enum-editor") :
    create_editor p app editor_id fp d =
      (Except.error (PluginError.EditorNotFound editor_id), p, app) := by
  simp [create_editor, hk]

/-- A key of the map filtered at `n` was a key of the map and is not `n`. -/
theorem mem_keysOf_filter_ne {α : Type} {m : List (Nat × α)} {n a : Nat}
    (h : a ∈ keysOf (m.filter (fun kv => kv.1 ≠ n))) :
    a ∈ keysOf m ∧ a ≠ n := by
  rcases List.mem_map.mp h with ⟨kv, hkv, rfl⟩
  refine ⟨List.mem_map_of_mem (·.1) (List.mem_of_mem_filter hkv), ?_⟩
  simpa using List.of_mem_filter hkv

/-- Keys of a map stay duplicate-free under `mapInsert`. -/
theorem nodup_keysOf_mapInsert {α : Type} (k : Nat) (v : α)
    (m : List (Nat × α)) (h : (keysOf m).Nodup) :
    (keysOf (mapInsert k v m)).Nodup := by
  have hcons : keysOf (mapInsert k v m) =
      k :: keysOf (m.filter (fun kv => kv.1 ≠ k)) := rfl
  rw [hcons]
  refine List.nodup_cons.mpr ⟨fun hmem => (mem_keysOf_filter_ne hmem).2 rfl, ?_⟩
  have hsub : (keysOf (m.filter (fun kv => kv.1 ≠ k))).Sublist (keysOf m) := by
    unfold keysOf
    exact List.Sublist.map (·.1) (List.filter_sublist m)
  exact List.Nodup.sublist hsub h

/-- Registry invariant: every registered id is below the counter and the
ids are pairwise distinct. -/
def RegInv (p : EnumEditorPlugin) : Prop :=
  (∀ k ∈ keysOf p.editors, k < p.next_editor_id) ∧ (keysOf p.editors).Nodup

/-- The default plugin state satisfies the registry invariant. -/
theorem regInv_default : RegInv EnumEditorPlugin.default :=
  ⟨fun k hk => absurd hk (List.not_mem_nil k), List.nodup_nil⟩

/-- Function `create_editor` preserves the registry invariant. -/
theorem regInv_create (p : EnumEditorPlugin) (app : AppState)
    (editor_id : String) (fp : FsPath) (d : Bool) (h : RegInv p) :
    RegInv (create_editor p app editor_id fp d).2.1 := by
  by_cases hk : editor_id = "enum-editor"
  · subst hk
    rw [create_editor_matched]
    constructor
    · intro k hkmem
      dsimp only at hkmem ⊢
      have hcons : keysOf (mapInsert p.next_editor_id
          { panel := app.next_entity_id,
            wrapper := { panel := app.next_entity_id, file_path := fp } }
          p.editors) =
          p.next_editor_id ::
            keysOf (p.editors.filter (fun kv => kv.1 ≠ p.next_editor_id)) := rfl
      rw [hcons] at hkmem
      rcases List.mem_cons.mp hkmem with rfl | hk2
      · omega
      · have := (mem_keysOf_filter_ne hk2).1
        have := h.1 k this
        omega
    · exact nodup_keysOf_mapInsert _ _ _ h.2
  · rw [create_editor_unmatched p app editor_id fp d hk]
    exact h

/-- Function `on_unload` preserves the registry invariant (and keeps the counter). -/
theorem regInv_unload (p : EnumEditorPlugin) : RegInv (on_unload p).2 :=
  ⟨fun k hk => absurd hk (List.not_mem_nil k), List.nodup_nil⟩

/-- One host-visible registry operation. -/
inductive PluginOp where
  | create (editor_id : String) (file_path : FsPath) (is_dir : Bool)
  | unload
  deriving Repr, DecidableEq

/-- Run a sequence of `create_editor` / `on_unload` operations, collecting
the id allocated by each successful create. -/
def runOps : List PluginOp → EnumEditorPlugin → AppState →
    EnumEditorPlugin × AppState × List Nat
  | [], p, app => (p, app, [])
  | PluginOp.create k fp d :: rest, p, app =>
    let step := create_editor p app k fp d
    let next := runOps rest step.2.1 step.2.2
    match step.1 with
    | Except.ok _ => (next.1, next.2.1, p.next_editor_id :: next.2.2)
    | Except.error _ => next
  | PluginOp.unload :: rest, p, app => runOps rest (on_unload p).2 app

/-- Along a run, every successful create inserts at a key that is not yet
present in the registry (so no record is ever overwritten). -/
def FreshRun : List PluginOp → EnumEditorPlugin → AppState → Prop
  | [], _, _ => True
  | PluginOp.create k fp d :: rest, p, app =>
    ((create_editor p app k fp d).1.isOk = true →
        p.next_editor_id ∉ keysOf p.editors) ∧
      FreshRun rest (create_editor p app k fp d).2.1
        (create_editor p app k fp d).2.2
  | PluginOp.unload :: rest, p, app => FreshRun rest (on_unload p).2 app

/-- Reduction of `runOps` over a successful create. -/
theorem runOps_cons_create_ok (k : String) (fp : FsPath) (d : Bool)
    (rest : List PluginOp) (p : EnumEditorPlugin) (app : AppState)
    (hok : (create_editor p app k fp d).1.isOk = true) :
    runOps (PluginOp.create k fp d :: rest) p app =
      ((runOps rest (create_editor p app k fp d).2.1
          (create_editor p app k fp d).2.2).1,
       (runOps rest (create_editor p app k fp d).2.1
          (create_editor p app k fp d).2.2).2.1,
       p.next_editor_id ::
         (runOps rest (create_editor p app k fp d).2.1
            (create_editor p app k fp d).2.2).2.2) := by
  simp only [runOps]
  rcases hr : (create_editor p app k fp d).1 with e | v
  · rw [hr] at hok
    simp [Except.isOk, Except.toBool] at hok
  · rfl

/-- Reduction of `runOps` over a create whose kind does not match. -/
theorem runOps_cons_create_unmatched (k : String) (fp : FsPath) (d : Bool)
    (rest : List PluginOp) (p : EnumEditorPlugin) (app : AppState)
    (hk : k ≠ "enum-editor") :
    runOps (PluginOp.create k fp d :: rest) p app = runOps rest p app := by
  simp only [runOps, create_editor_unmatched p app k fp d hk]

/-- Invariant propagation along any operation sequence: every successful
create is fresh, the allocated ids all sit at or above the starting
counter, they strictly increase along the run, and the registry invariant
holds at the end. -/
theorem runOps_inv (ops : List PluginOp) :
    ∀ p app, RegInv p →
      FreshRun ops p app ∧
        (∀ i ∈ (runOps ops p app).2.2, p.next_editor_id ≤ i) ∧
        (runOps ops p app).2.2.Pairwise (· < ·) ∧
        RegInv (runOps ops p app).1 := by
  induction ops with
  | nil =>
    intro p app h
    exact ⟨trivial, fun i hi => absurd hi (List.not_mem_nil i),
      List.Pairwise.nil, h⟩
  | cons op rest ih =>
    intro p app h
    cases op with
    | create k fp d =>
      by_cases hk : k = "enum-editor"
      · subst hk
        have hinv2 : RegInv (create_editor p app "enum-editor" fp d).2.1 :=
          regInv_create p app "enum-editor" fp d h
        have hih := ih (create_editor p app "enum-editor" fp d).2.1
          (create_editor p app "enum-editor" fp d).2.2 hinv2
        have hcnt :
            (create_editor p app "enum-editor" fp d).2.1.next_editor_id =
              p.next_editor_id + 1 := by
          rw [create_editor_matched]
        have hfresh : p.next_editor_id ∉ keysOf p.editors :=
          fun hmem => absurd (h.1 _ hmem) (lt_irrefl _)
        have hok : (create_editor p app "enum-editor" fp d).1.isOk = true := by
          rw [create_editor_matched]
          rfl
        have hred := runOps_cons_create_ok "enum-editor" fp d rest p app hok
        refine ⟨⟨fun _ => hfresh, hih.1⟩, ?_, ?_, ?_⟩
        · rw [hred]
          intro i hi
          rcases List.mem_cons.mp hi with rfl | hi2
          · exact Nat.le_refl _
          · have := hih.2.1 i hi2
            rw [hcnt] at this
            omega
        · rw [hred]
          refine List.pairwise_cons.mpr ⟨fun i hi => ?_, hih.2.2.1⟩
          have := hih.2.1 i hi
          rw [hcnt] at this
          omega
        · rw [hred]
          exact hih.2.2.2
      · have hstate := create_editor_unmatched p app k fp d hk
        have hih := ih p app h
        have hred := runOps_cons_create_unmatched k fp d rest p app hk
        refine ⟨⟨fun hok => ?_, ?_⟩, ?_, ?_, ?_⟩
        · rw [hstate] at hok
          simp [Except.isOk, Except.toBool] at hok
        · rw [hstate]
          exact hih.1
        · rw [hred]
          exact hih.2.1
        · rw [hred]
          exact hih.2.2.1
        · rw [hred]
          exact hih.2.2.2
    | unload =>
      have hih := ih (on_unload p).2 app (regInv_unload p)
      exact ⟨hih.1, hih.2.1, hih.2.2.1, hih.2.2.2⟩

/-- Claim C7: across every sequence of `create_editor` and `on_unload`
operations from the default state, each successful create inserts at a key
not already present (no record is overwritten), the allocated ids are
pairwise distinct for the plugin's lifetime, no two final records share an
id, and `on_unload` leaves the counter untouched (so ids are never
reused). -/
theorem ids_never_reused (ops : List PluginOp) :
    FreshRun ops EnumEditorPlugin.default AppState.empty ∧
      (runOps ops EnumEditorPlugin.default AppState.empty).2.2.Nodup ∧
      (keysOf
        (runOps ops EnumEditorPlugin.default AppState.empty).1.editors).Nodup ∧
      ∀ p : EnumEditorPlugin, (on_unload p).2.next_editor_id =
        p.next_editor_id := by
  have h := runOps_inv ops EnumEditorPlugin.default AppState.empty regInv_default
  exact ⟨h.1, h.2.2.1.imp (fun hlt => ne_of_lt hlt), h.2.2.2.2, fun p => rfl⟩

/- ### Claim C8 (lock structure of the registry) -/

/-- One atomic mutex-protected step of the concurrent registry. In the
code, `create_editor` takes the `next_editor_id` mutex and the `editors`
mutex in two separate scopes (releasing the first before taking the
second), so one call contributes an `allocStep` followed by a
`registerStep`; `on_unload` takes the `editors` mutex once, contributing a
single `clearStep`. The registered record is abstracted to the wrapper's
stored path. -/
inductive RegStep where
  | allocStep (tid : Nat)
  | registerStep (tid : Nat) (file_path : FsPath)
  | clearStep (tid : Nat)
  deriving Repr, DecidableEq

/-- The concurrent registry state: the two mutex-protected fields, each
thread's local `id` variable (held between a call's two lock scopes), and
the count each unload observed. -/
structure ConcState where
  next_editor_id : Nat
  editors : List (Nat × FsPath)
  held : List (Nat × Nat)
  counts : List (Nat × Nat)
  deriving Repr, DecidableEq

/-- Execute one atomic step. -/
def execStep : RegStep → ConcState → ConcState
  | RegStep.allocStep tid, s =>
    { s with next_editor_id := s.next_editor_id + 1,
             held := mapInsert tid s.next_editor_id s.held }
  | RegStep.registerStep tid fp, s =>
    match s.held.lookup tid with
    | some i => { s with editors := mapInsert i fp s.editors }
    | none => s
  | RegStep.clearStep tid, s =>
    { s with counts := mapInsert tid s.editors.length s.counts,
             editors := [] }

/-- The step sequence of one `create_editor` call under the code's two
separate locks. -/
def createSteps (tid : Nat) (fp : FsPath) : List RegStep :=
  [RegStep.allocStep tid, RegStep.registerStep tid fp]

/-- The step sequence of one `on_unload` call. -/
def unloadSteps (tid : Nat) : List RegStep := [RegStep.clearStep tid]

/-- Pop the next pending step of thread `t`. -/
def popStep (progs : List (List RegStep)) (t : Nat) :
    Option (RegStep × List (List RegStep)) :=
  match progs.get? t with
  | some (st :: more) => some (st, progs.set t more)
  | _ => none

/-- Run the thread programs under a schedule (a list of thread indices: at
each point the named thread executes its next atomic step, if it has one).
Every schedule is a legal interleaving, because each step is exactly one
mutex-protected critical section of the code. Returns the final state and
the remaining programs. -/
def runSched : List Nat → List (List RegStep) → ConcState →
    ConcState × List (List RegStep)
  | [], progs, s => (s, progs)
  | t :: rest, progs, s =>
    match popStep progs t with
    | some x => runSched rest x.2 (execStep x.1 s)
    | none => runSched rest progs s

/-- The registry as observed through instance ids 0 and 1, unload thread
2's count, and the counter. -/
def concObs (s : ConcState) :
    Option FsPath × Option FsPath × Option Nat × Nat :=
  (s.editors.lookup 0, s.editors.lookup 1, s.counts.lookup 2,
   s.next_editor_id)

/-- Initial concurrent state. -/
def concInit : ConcState :=
  { next_editor_id := 0, editors := [], held := [], counts := [] }

/-- Three threads: thread 0 creates an editor for path `["a"]`, thread 1
creates one for `["b"]`, thread 2 unloads. -/
def concProgs : List (List RegStep) :=
  [createSteps 0 ["a"], createSteps 1 ["b"], unloadSteps 2]

/-- Counterexample to claim C8: the counter and the map are NOT protected
by one shared lock — the code keeps them in two separate `Arc<Mutex<..>>`
fields — so allocation and registration are separate critical sections.
The schedule `[0, 1, 1, 2, 0]` (thread 1's whole call and thread 2's
clear both interleave between thread 0's allocation and registration) is a
complete legal interleaving of the three threads, and its final
observation differs from the final observation of every one of the six
serial executions: the pair do not appear atomic as a unit, and an
allocated id is not claimed before other registry operations interleave. -/
theorem single_lock_atomicity_counterexample :
    (runSched [0, 1, 1, 2, 0] concProgs concInit).2 = [[], [], []] ∧
      concObs (runSched [0, 1, 1, 2, 0] concProgs concInit).1 ≠
        concObs (runSched [0, 0, 1, 1, 2] concProgs concInit).1 ∧
      concObs (runSched [0, 1, 1, 2, 0] concProgs concInit).1 ≠
        concObs (runSched [0, 0, 2, 1, 1] concProgs concInit).1 ∧
      concObs (runSched [0, 1, 1, 2, 0] concProgs concInit).1 ≠
        concObs (runSched [1, 1, 0, 0, 2] concProgs concInit).1 ∧
      concObs (runSched [0, 1, 1, 2, 0] concProgs concInit).1 ≠
        concObs (runSched [1, 1, 2, 0, 0] concProgs concInit).1 ∧
      concObs (runSched [0, 1, 1, 2, 0] concProgs concInit).1 ≠
        concObs (runSched [2, 0, 0, 1, 1] concProgs concInit).1 ∧
      concObs (runSched [0, 1, 1, 2, 0] concProgs concInit).1 ≠
        concObs (runSched [2, 1, 1, 0, 0] concProgs concInit).1 :=
  ⟨by decide, by decide, by decide, by decide, by decide, by decide, by decide⟩

/-- A value of the map filtered at key `t` was a value of the map. -/
theorem mem_map_snd_filter {m : List (Nat × Nat)} {t a : Nat}
    (h : a ∈ (m.filter (fun kv => kv.1 ≠ t)).map (·.2)) :
    a ∈ m.map (·.2) := by
  rcases List.mem_map.mp h with ⟨kv, hkv, rfl⟩
  exact List.mem_map_of_mem (·.2) (List.mem_of_mem_filter hkv)

/-- Concurrent allocation invariant: ids held by in-flight creates are all
below the counter and pairwise distinct. -/
def ConcInv (s : ConcState) : Prop :=
  (∀ v ∈ s.held.map (·.2), v < s.next_editor_id) ∧
    (s.held.map (·.2)).Nodup

/-- Every atomic step preserves the concurrent allocation invariant. -/
theorem concInv_step (st : RegStep) (s : ConcState) (h : ConcInv s) :
    ConcInv (execStep st s) := by
  cases st with
  | allocStep tid =>
    constructor
    · intro v hv
      have hv2 : v ∈ s.next_editor_id ::
          (s.held.filter (fun kv => kv.1 ≠ tid)).map (·.2) := by
        simpa [execStep, mapInsert] using hv
      rcases List.mem_cons.mp hv2 with rfl | hv3
      · exact Nat.lt_succ_self _
      · exact Nat.lt_succ_of_lt (h.1 v (mem_map_snd_filter hv3))
    · have hcons : (execStep (RegStep.allocStep tid) s).held.map (·.2) =
          s.next_editor_id ::
            (s.held.filter (fun kv => kv.1 ≠ tid)).map (·.2) := rfl
      rw [hcons]
      refine List.nodup_cons.mpr ⟨fun hmem => ?_, ?_⟩
      · exact absurd (h.1 _ (mem_map_snd_filter hmem)) (lt_irrefl _)
      · have hsub : ((s.held.filter (fun kv => kv.1 ≠ tid)).map (·.2)).Sublist
            (s.held.map (·.2)) :=
          List.Sublist.map (·.2) (List.filter_sublist s.held)
        exact List.Nodup.sublist hsub h.2
  | registerStep tid fp =>
    rcases hl : s.held.lookup tid with _ | i
    · simpa [execStep, hl] using h
    · simpa [execStep, hl] using h
  | clearStep tid =>
    exact h

/-- Claim C8 as amended: the id counter and the instance map live behind
two separate locks (one `Arc<Mutex<..>>` each), not a single shared one;
each individual critical section (allocate, register, clear) is atomic, and
under every schedule of every set of thread programs the ids held by
in-flight creates remain pairwise distinct and below the counter — but
allocation and registration of one call are not atomic as a unit, and other
registry operations can interleave between them. -/
theorem conc_alloc_ids_distinct (sched : List Nat) :
    ∀ progs s, ConcInv s → ConcInv (runSched sched progs s).1 := by
  induction sched with
  | nil => intro progs s h; exact h
  | cons t rest ih =>
    intro progs s h
    simp only [runSched]
    rcases hp : popStep progs t with _ | x
    · exact ih progs s h
    · exact ih x.2 (execStep x.1 s) (concInv_step x.1 s h)

/-- Witness for the amended C8 at the interleaved schedule of the
counterexample. -/
theorem conc_alloc_ids_distinct_witness :
    ConcInv concInit ∧
      ConcInv (runSched [0, 1, 1, 2, 0] concProgs concInit).1 :=
  ⟨by unfold ConcInv; decide,
    conc_alloc_ids_distinct [0, 1, 1, 2, 0] concProgs concInit
      (by unfold ConcInv; decide)⟩
